import Mathlib

/-!
Verification of the Statement Normalization & Comparative Scoring Engine
(`services/financial_analysis.py` and `services/scoring.py`).

Shallow embedding conventions:
* Python floats are modelled by `ℚ` where only field arithmetic occurs
  (change rates, financial facts) and by `ℝ` where `math.exp` occurs
  (the sigmoid transform of the scorer).
* `None` becomes `Option.none`; Python falsiness of strings is checked
  explicitly (`none` or `some ""`).
* Python `dict` (insertion ordered, in-place update) becomes an
  association list with in-place update.
* The stable Python `sorted` becomes `List.insertionSort`, which is stable.
-/

/-- Calendar date, compared lexicographically by (year, month, day);
models Python `datetime.date`. -/
structure PyDate where
  year : Int
  month : Nat
  day : Nat
deriving DecidableEq

/-- Python `date.min`: year 1, month 1, day 1. -/
def PyDate.minDate : PyDate := ⟨1, 1, 1⟩

/-- Strict lexicographic order on dates, as Python compares `date`s. -/
def PyDate.ltB (a b : PyDate) : Bool :=
  decide (a.year < b.year) ||
    (decide (a.year = b.year) &&
      (decide (a.month < b.month) ||
        (decide (a.month = b.month) && decide (a.day < b.day))))

/-- Reflexive lexicographic order on dates. -/
def PyDate.leB (a b : PyDate) : Bool :=
  PyDate.ltB a b || decide (a = b)

/-- One row of the `financial_statements` table, restricted to the columns
the analysis/scoring core reads. -/
structure FinancialStatement where
  id : Nat
  code : String
  disclosure_number : Option String
  type_of_document : Option String
  type_of_current_period : Option String
  current_fiscal_year_end_date : Option PyDate
  current_period_end_date : Option PyDate
  disclosed_date : Option PyDate
  net_sales : Option ℚ
  operating_profit : Option ℚ
  ordinary_profit : Option ℚ
  profit : Option ℚ
deriving DecidableEq

/-- Model of `_change_rate(current, previous)` from `services/financial_analysis.py`:
percentage change with the zero/None edge-case conventions. -/
def change_rate (current previous : Option ℚ) : Option ℚ :=
  match current, previous with
  | none, _ => none
  | _, none => none
  | some c, some p =>
    if p = 0 then
      if c = 0 then some 0
      else if 0 < c then some 100 else some (-100)
    else some ((c - p) / |p| * 100)

/-- Python `PERIOD_ORDER.get(p, 0)`: quarter rank of a period-type label. -/
def period_order (p : String) : Int :=
  if p = "1Q" then 1
  else if p = "2Q" then 2
  else if p = "3Q" then 3
  else if p = "FY" then 4
  else 0

/-- Python `rev_map.get(n, "")`: label of a quarter rank. -/
def rev_period (n : Int) : String :=
  if n = 1 then ("1Q")
  else if n = 2 then ("2Q")
  else if n = 3 then ("3Q")
  else if n = 4 then ("FY")
  else ("")

/-- Auxiliary list-level substring containment. -/
def strContainsAux (needle : List Char) : List Char → Bool
  | [] => needle.isEmpty
  | c :: rest => needle.isPrefixOf (c :: rest) || strContainsAux needle rest

/-- The Python test `needle in hay` on strings. -/
def str_contains (hay needle : String) : Bool :=
  strContainsAux needle.data hay.data

/-- Constant `FinancialAnalyzer.EARNINGS_DOC_TYPES`. -/
def EARNINGS_DOC_TYPES : String := "FinancialStatements"

/-- Model of `FinancialAnalyzer._is_earnings_statement`: a falsy doc-type label is
rejected, otherwise the label must contain the earnings marker substring. -/
def is_earnings_statement (doc : Option String) : Bool :=
  match doc with
  | none => false
  | some d => if d = "" then false else str_contains d EARNINGS_DOC_TYPES

/-- Dedup key used by `get_statements_for_code`:
`(str(current_fiscal_year_end_date), type_of_current_period or "")`.
`str` is injective on dates and sends `None` to a non-date string, so the
key is modelled directly as the pair. -/
def dKey (s : FinancialStatement) : Option PyDate × String :=
  (s.current_fiscal_year_end_date, s.type_of_current_period.getD (""))

/-- Python `s.disclosure_number or ""`. -/
def discNo (s : FinancialStatement) : String :=
  s.disclosure_number.getD ("")

/-- One step of the Python dict update in `get_statements_for_code`:
if the key is present, keep the entry with the larger disclosure number
(strictly-greater wins, in place); otherwise append at the end. -/
def dictUpd : List ((Option PyDate × String) × FinancialStatement) →
    FinancialStatement → List ((Option PyDate × String) × FinancialStatement)
  | [], s => [(dKey s, s)]
  | (k, e) :: rest, s =>
    if k = dKey s then
      (if discNo e < discNo s then (k, s) else (k, e)) :: rest
    else (k, e) :: dictUpd rest s

/-- The whole dedup pass: fold the dict update over the filtered records. -/
def dictFold (l : List FinancialStatement) :
    List ((Option PyDate × String) × FinancialStatement) :=
  l.foldl dictUpd []

/-- Sort key of the final `sorted` call:
`(current_fiscal_year_end_date or date.min, PERIOD_ORDER.get(period, 0))`. -/
def chronoKey (s : FinancialStatement) : PyDate × Int :=
  (s.current_fiscal_year_end_date.getD PyDate.minDate,
   period_order (s.type_of_current_period.getD ("")))

/-- Reflexive lexicographic comparison of sort keys. -/
def chronoKeyLeB (x y : PyDate × Int) : Bool :=
  PyDate.ltB x.1 y.1 || (decide (x.1 = y.1) && decide (x.2 ≤ y.2))

/-- Strict lexicographic comparison of sort keys. -/
def chronoKeyLt (x y : PyDate × Int) : Prop :=
  PyDate.ltB x.1 y.1 = true ∨ (x.1 = y.1 ∧ x.2 < y.2)

/-- The order relation used to sort the canonical sequence. -/
def chronoLe (a b : FinancialStatement) : Prop :=
  chronoKeyLeB (chronoKey a) (chronoKey b) = true

instance : DecidableRel chronoLe :=
  fun a b =>
    inferInstanceAs (Decidable (chronoKeyLeB (chronoKey a) (chronoKey b) = true))

/-- Model of `FinancialAnalyzer.get_statements_for_code`, given the raw statement
rows of one company as returned by the store: filter to genuine earnings
records, dedup by `(fiscal-year-end, period)` keeping the greatest
disclosure number, then sort by `(fiscal-year-end, period rank)`. -/
def get_statements_for_code (records : List FinancialStatement) :
    List FinancialStatement :=
  let earnings := records.filter fun s => is_earnings_statement s.type_of_document
  List.insertionSort chronoLe ((dictFold earnings).map Prod.snd)

/-- Match predicate of the loop in `find_previous_year_statement`. -/
def yoy_match (cur s : FinancialStatement) : Bool :=
  match s.current_fiscal_year_end_date, cur.current_fiscal_year_end_date with
  | some d', some d =>
    decide (d'.year = d.year - 1) &&
      (s.type_of_current_period == cur.type_of_current_period) &&
      decide (s.id ≠ cur.id)
  | _, _ => false

/-- Model of `FinancialAnalyzer.find_previous_year_statement`. -/
def find_previous_year_statement (stmts : List FinancialStatement)
    (cur : FinancialStatement) : Option FinancialStatement :=
  match cur.current_fiscal_year_end_date, cur.type_of_current_period with
  | none, _ => none
  | _, none => none
  | some _, some p => if p = "" then none else stmts.find? (yoy_match cur)

/-- Match predicate of the loop in `find_previous_quarter_statement`,
with the target year and period precomputed. -/
def qoq_match (ty : Int) (tp : String) (cur s : FinancialStatement) : Bool :=
  match s.current_fiscal_year_end_date with
  | none => false
  | some d' =>
    decide (d'.year = ty) && (s.type_of_current_period == some tp) &&
      decide (s.id ≠ cur.id)

/-- Model of `FinancialAnalyzer.find_previous_quarter_statement`. -/
def find_previous_quarter_statement (stmts : List FinancialStatement)
    (cur : FinancialStatement) : Option FinancialStatement :=
  match cur.type_of_current_period, cur.current_fiscal_year_end_date with
  | none, _ => none
  | _, none => none
  | some p, some d =>
    if p = "" then none
    else
      if period_order p = 0 then none
      else
        if period_order p = 1 then
          stmts.find? (qoq_match (d.year - 1) "FY" cur)
        else
          stmts.find? (qoq_match d.year (rev_period (period_order p - 1)) cur)

/-- The QoQ predecessor rule exactly as the specification states it:
rank one less within the same fiscal-year-end year, except a `1Q` target,
whose predecessor is the prior-year `FY` record. -/
def qoqSpecMatch (cur s : FinancialStatement) : Bool :=
  match cur.current_fiscal_year_end_date, cur.type_of_current_period with
  | some d, some p =>
    (match s.current_fiscal_year_end_date with
     | none => false
     | some d' =>
       (if p = "1Q" then
          decide (d'.year = d.year - 1) && (s.type_of_current_period == some ("FY"))
        else
          decide (d'.year = d.year) &&
            decide (period_order (s.type_of_current_period.getD ("")) =
              period_order p - 1)) &&
         decide (s.id ≠ cur.id))
  | _, _ => false

/-- Year-over-year comparison bundle (`compare_year_over_year`): the
resolved previous statement and the four percentage deltas.  When no
previous-year statement exists all deltas stay `none`, matching the
Python dict whose delta entries stay `None`. -/
structure YoYResult where
  previous : Option FinancialStatement
  yoy_net_sales : Option ℚ
  yoy_operating_profit : Option ℚ
  yoy_ordinary_profit : Option ℚ
  yoy_profit : Option ℚ
deriving DecidableEq

/-- Model of `FinancialAnalyzer.compare_year_over_year`, over the canonical sequence
and an explicit target statement. -/
def compare_year_over_year (stmts : List FinancialStatement)
    (cur : FinancialStatement) : YoYResult :=
  match find_previous_year_statement stmts cur with
  | none => ⟨none, none, none, none, none⟩
  | some p =>
    ⟨some p,
     change_rate cur.net_sales p.net_sales,
     change_rate cur.operating_profit p.operating_profit,
     change_rate cur.ordinary_profit p.ordinary_profit,
     change_rate cur.profit p.profit⟩

/-- Quarter-over-quarter comparison bundle (`compare_quarter_over_quarter`). -/
structure QoQResult where
  previous : Option FinancialStatement
  qoq_net_sales : Option ℚ
  qoq_operating_profit : Option ℚ
  qoq_ordinary_profit : Option ℚ
  qoq_profit : Option ℚ
deriving DecidableEq

/-- Model of `FinancialAnalyzer.compare_quarter_over_quarter`, over the canonical
sequence and an explicit target statement. -/
def compare_quarter_over_quarter (stmts : List FinancialStatement)
    (cur : FinancialStatement) : QoQResult :=
  match find_previous_quarter_statement stmts cur with
  | none => ⟨none, none, none, none, none⟩
  | some p =>
    ⟨some p,
     change_rate cur.net_sales p.net_sales,
     change_rate cur.operating_profit p.operating_profit,
     change_rate cur.ordinary_profit p.ordinary_profit,
     change_rate cur.profit p.profit⟩

/-- Signal tags emitted by `detect_signals`.  Each constructor stands for
one of the formatted strings the Python code appends; the scorer
substring tests (`大幅増益` / `大幅減益` / `黒字転換` / `赤字転落`) pick out exactly the
corresponding constructors. -/
inductive Signal where
  | bigIncrease (label : String) (value : ℚ)
  | bigDecrease (label : String) (value : ℚ)
  | turnProfitable
  | turnUnprofitable
  | recordHigh
deriving DecidableEq

/-- Large-move tags for one labelled delta: `>= +30` emits an increase tag,
`<= -30` a decrease tag, an absent delta emits nothing. -/
def bigMoveTag (label : String) (v : Option ℚ) : List Signal :=
  match v with
  | none => []
  | some x =>
    if 30 ≤ x then [Signal.bigIncrease label x]
    else if x ≤ -30 then [Signal.bigDecrease label x]
    else []

/-- The four large-move checks of `detect_signals`, in source order. -/
def bigMoveTags (y : YoYResult) : List Signal :=
  bigMoveTag ("売上高") y.yoy_net_sales ++ bigMoveTag ("営業利益") y.yoy_operating_profit ++
    bigMoveTag ("経常利益") y.yoy_ordinary_profit ++ bigMoveTag ("純利益") y.yoy_profit

/-- Turnaround tags: previous net profit `< 0 <= current` turns profitable,
previous `>= 0 > current` turns unprofitable. -/
def turnTags (cur prev : FinancialStatement) : List Signal :=
  match cur.profit, prev.profit with
  | some c, some p =>
    if p < 0 ∧ 0 ≤ c then [Signal.turnProfitable]
    else if 0 ≤ p ∧ c < 0 then [Signal.turnUnprofitable]
    else []
  | _, _ => []

/-- The other canonical statements sharing the target period-type label
with a present operating profit (the record-high comparison set). -/
def samePeriodGroup (stmts : List FinancialStatement)
    (cur : FinancialStatement) : List FinancialStatement :=
  stmts.filter fun s =>
    (s.type_of_current_period == cur.type_of_current_period) &&
      s.operating_profit.isSome && decide (s.id ≠ cur.id)

/-- The Python `max` over a nonempty list of rationals (left fold of `max`);
the `[]` case is never reached by the caller. -/
def maxOpOf : List ℚ → ℚ
  | [] => 0
  | [x] => x
  | x :: y :: rest => max x (maxOpOf (y :: rest))

/-- Record-high tag: emitted when the comparison set is nonempty and the
current operating profit strictly exceeds its maximum. -/
def recordTags (stmts : List FinancialStatement)
    (cur : FinancialStatement) : List Signal :=
  match cur.operating_profit with
  | none => []
  | some v =>
    let group := samePeriodGroup stmts cur
    if group.isEmpty then []
    else if maxOpOf (group.filterMap FinancialStatement.operating_profit) < v then
      [Signal.recordHigh]
    else []

/-- Model of `FinancialAnalyzer.detect_signals`: large-move tags, then (only when a
previous-year statement exists) turnaround and record-high tags. -/
def detect_signals (stmts : List FinancialStatement)
    (cur : FinancialStatement) : List Signal :=
  if stmts.isEmpty then []
  else
    let y := compare_year_over_year stmts cur
    bigMoveTags y ++
      match y.previous with
      | none => []
      | some p => turnTags cur p ++ recordTags stmts cur

/-- Model of `_sigmoid_score` from `services/scoring.py`: logistic transform of an
optional delta, neutral `0.5` on absent data. -/
noncomputable def sigmoid_score (value : Option ℚ) (scale : ℝ) : ℝ :=
  match value with
  | none => 0.5
  | some x => 1 / (1 + Real.exp (-(scale * (x : ℝ))))

/-- Raw QoQ acceleration (`accel` in `score_single`): defined only when
both operating-profit deltas are present. -/
def accel_raw (qoq_op yoy_op : Option ℚ) : Option ℚ :=
  match qoq_op, yoy_op with
  | some q, some y => some (q - y)
  | _, _ => none

/-- Acceleration sub-score (`s_accel`): sigmoid of the acceleration with
steepness 0.03, neutral `0.5` when either delta is absent. -/
noncomputable def accel_score (qoq_op yoy_op : Option ℚ) : ℝ :=
  match qoq_op, yoy_op with
  | some q, some y => sigmoid_score (some (q - y)) 0.03
  | _, _ => 0.5

/-- Flag `revision_flag`: first large-move tag wins while scanning the signal
list (+1 for a large increase, -1 for a large decrease). -/
def revision_flag_of : List Signal → Int
  | [] => 0
  | Signal.bigIncrease _ _ :: _ => 1
  | Signal.bigDecrease _ _ :: _ => -1
  | _ :: rest => revision_flag_of rest

/-- Flag `turnaround_flag`: first turnaround tag wins while scanning the
signal list. -/
def turnaround_flag_of : List Signal → Int
  | [] => 0
  | Signal.turnProfitable :: _ => 1
  | Signal.turnUnprofitable :: _ => -1
  | _ :: rest => turnaround_flag_of rest

/-- The `{1: 1.0, -1: 0.0, 0: 0.5}` mapping applied to both flags. -/
noncomputable def flag_score (f : Int) : ℝ :=
  if f = 1 then 1 else if f = -1 then 0 else 0.5

/-- The six-key scoring weight mapping (`DEFAULT_SCORING_WEIGHTS` shape). -/
structure Weights where
  yoy_sales : ℝ
  yoy_operating_income : ℝ
  yoy_profit : ℝ
  qoq_acceleration : ℝ
  revision_flag : ℝ
  turnaround_flag : ℝ

/-- Term `weighted_score` in `score_single`: the six weighted sub-scores. -/
noncomputable def weighted_score (w : Weights)
    (yoy_sales yoy_op yoy_profit qoq_op : Option ℚ) (signals : List Signal) : ℝ :=
  w.yoy_sales * sigmoid_score yoy_sales 0.05 +
    w.yoy_operating_income * sigmoid_score yoy_op 0.05 +
    w.yoy_profit * sigmoid_score yoy_profit 0.05 +
    w.qoq_acceleration * accel_score qoq_op yoy_op +
    w.revision_flag * flag_score (revision_flag_of signals) +
    w.turnaround_flag * flag_score (turnaround_flag_of signals)

/-- The Python `round(x, 1)` on exact reals: round `10 * x` to the nearest
integer, ties to even, then divide by 10. -/
noncomputable def py_round_1 (x : ℝ) : ℝ :=
  (((if Int.fract (10 * x) = 1 / 2 then
      (if 2 ∣ ⌊10 * x⌋ then ⌊10 * x⌋ else ⌊10 * x⌋ + 1)
    else round (10 * x)) : ℤ) : ℝ) / 10

/-- Value `total_score` in `score_single`: the weighted sum scaled to 0-100,
rounded to one decimal, then clamped into `[0, 100]`. -/
noncomputable def total_score (w : Weights)
    (yoy_sales yoy_op yoy_profit qoq_op : Option ℚ) (signals : List Signal) : ℝ :=
  max 0 (min 100 (py_round_1 (weighted_score w yoy_sales yoy_op yoy_profit qoq_op signals * 100)))

/-- Category thresholds of `score_single`. -/
noncomputable def score_category (t : ℝ) : String :=
  if 80 ≤ t then ("注目") else if 50 ≤ t then ("要確認") else ("通常")

/-- The slice of the result dict of `score_single` that the batch entry
point sorts by. -/
structure ScoreResult where
  code : String
  total : ℝ
  category : String

/-- Model of `ScoringService.score_single` for one company: resolve the canonical
sequence of the rows of the company in the store, compare, detect signals and
compose the weighted score. -/
noncomputable def score_single (store : List FinancialStatement)
    (cur : FinancialStatement) (w : Weights) : ScoreResult :=
  let records := store.filter fun s => s.code == cur.code
  let stmts := get_statements_for_code records
  let y := compare_year_over_year stmts cur
  let q := compare_quarter_over_quarter stmts cur
  let signals := detect_signals stmts cur
  let t := total_score w y.yoy_net_sales y.yoy_operating_profit y.yoy_profit
    q.qoq_operating_profit signals
  ⟨cur.code, t, score_category t⟩

/-- Descending order on total scores used by the final
`sort(..., reverse=True)` of `score_all_for_date`. -/
def scoreGe (a b : ScoreResult) : Prop := b.total ≤ a.total

noncomputable instance : DecidableRel scoreGe :=
  fun _ _ => Classical.propDecidable _

instance : IsTotal ScoreResult scoreGe :=
  ⟨fun a b => le_total b.total a.total⟩

instance : IsTrans ScoreResult scoreGe :=
  ⟨fun _ _ _ h1 h2 => le_trans h2 h1⟩

/-- Model of `ScoringService.score_all_for_date`: score every statement disclosed
on the given date and return the results sorted by total score in
descending order. -/
noncomputable def score_all_for_date (store : List FinancialStatement)
    (w : Weights) (d : PyDate) : List ScoreResult :=
  let todays := store.filter fun s => s.disclosed_date == some d
  let results := todays.map fun s => score_single store s w
  List.insertionSort scoreGe results

/-- The default weight profile from `config.DEFAULT_SCORING_WEIGHTS`. -/
noncomputable def DEFAULT_SCORING_WEIGHTS : Weights :=
  ⟨0.15, 0.25, 0.20, 0.15, 0.15, 0.10⟩

/-- A weight profile whose neutral composite lands on 12.34, which the
one-decimal rounding step changes. -/
noncomputable def roundingWitnessWeights : Weights := ⟨0.2468, 0, 0, 0, 0, 0⟩

/-- A concrete 1Q statement used to instantiate theorems with hypotheses. -/
def oneQStatement : FinancialStatement :=
  ⟨1, "7974", some ("101"), some ("FinancialStatements_1Q"), some ("1Q"),
   some ⟨2025, 3, 31⟩, some ⟨2024, 6, 30⟩, some ⟨2024, 8, 1⟩,
   some 100, some 20, some 21, some 15⟩

/-- A concrete prior-year FY statement for the same company. -/
def priorFYStatement : FinancialStatement :=
  ⟨2, "7974", some ("100"), some ("FinancialStatements_FY"), some ("FY"),
   some ⟨2024, 3, 31⟩, some ⟨2024, 3, 31⟩, some ⟨2024, 5, 1⟩,
   some 90, some 10, some 11, some (-5)⟩

/-- An earnings statement with disclosure number "100". -/
def stmtDisc100 : FinancialStatement :=
  ⟨11, "7974", some ("100"), some ("FinancialStatements_2Q"), some ("2Q"),
   some ⟨2025, 3, 31⟩, some ⟨2024, 9, 30⟩, some ⟨2024, 11, 1⟩,
   some 95, some 18, some 19, some 12⟩

/-- A correction of the same period with disclosure number "101". -/
def stmtDisc101 : FinancialStatement :=
  ⟨12, "7974", some ("101"), some ("FinancialStatements_2Q"), some ("2Q"),
   some ⟨2025, 3, 31⟩, some ⟨2024, 9, 30⟩, some ⟨2024, 11, 2⟩,
   some 96, some 19, some 20, some 13⟩

instance (x y : PyDate × Int) : Decidable (chronoKeyLt x y) := by
  unfold chronoKeyLt
  infer_instance

instance : IsTotal FinancialStatement chronoLe :=
  ⟨fun a b => by
    show chronoKeyLeB (chronoKey a) (chronoKey b) = true ∨
      chronoKeyLeB (chronoKey b) (chronoKey a) = true
    obtain ⟨⟨ya, ma, da⟩, na⟩ := chronoKey a
    obtain ⟨⟨yb, mb, db⟩, nb⟩ := chronoKey b
    simp only [chronoKeyLeB, PyDate.ltB, Bool.or_eq_true, Bool.and_eq_true,
      decide_eq_true_eq, PyDate.mk.injEq]
    omega⟩

instance : IsTrans FinancialStatement chronoLe :=
  ⟨fun a b c h1 h2 => by
    unfold chronoLe at h1 h2 ⊢
    revert h1 h2
    obtain ⟨⟨ya, ma, da⟩, na⟩ := chronoKey a
    obtain ⟨⟨yb, mb, db⟩, nb⟩ := chronoKey b
    obtain ⟨⟨yc, mc, dc⟩, nc⟩ := chronoKey c
    intro h1 h2
    simp only [chronoKeyLeB, PyDate.ltB, Bool.or_eq_true, Bool.and_eq_true,
      decide_eq_true_eq, PyDate.mk.injEq] at h1 h2 ⊢
    omega⟩

/-- Claim C5 invariant: the canonical sequence is strictly increasing
in the sort key `(fiscal-year-end date, period-type rank)`. -/
def StrictChrono (l : List FinancialStatement) : Prop :=
  l.Pairwise fun a b => chronoKeyLt (chronoKey a) (chronoKey b)

instance : DecidableRel fun a b : FinancialStatement =>
    chronoKeyLt (chronoKey a) (chronoKey b) :=
  fun a b => inferInstanceAs (Decidable (chronoKeyLt (chronoKey a) (chronoKey b)))

instance (l : List FinancialStatement) : Decidable (StrictChrono l) :=
  inferInstanceAs (Decidable (l.Pairwise _))

/-- An earnings record whose period label "A" is outside the canonical
labels, hence of rank 0 in the sort key. -/
def oddPeriodA : FinancialStatement :=
  ⟨21, "9999", some ("1"), some ("FinancialStatements"), some ("A"),
   some ⟨2025, 3, 31⟩, none, none, none, none, none, none⟩

/-- A second rank-0 record with the same fiscal-year-end date but a
different period label "B", hence a distinct dedup key and an equal sort
key. -/
def oddPeriodB : FinancialStatement :=
  ⟨22, "9999", some ("2"), some ("FinancialStatements"), some ("B"),
   some ⟨2025, 3, 31⟩, none, none, none, none, none, none⟩

/-- Raw records covering the four canonical quarters of one fiscal year. -/
def cleanRecords : List FinancialStatement :=
  [⟨31, "7974", some ("1"), some ("FinancialStatements_2Q"), some ("2Q"),
    some ⟨2025, 3, 31⟩, none, none, none, none, none, none⟩,
   ⟨32, "7974", some ("2"), some ("FinancialStatements_1Q"), some ("1Q"),
    some ⟨2025, 3, 31⟩, none, none, none, none, none, none⟩,
   ⟨33, "7974", some ("3"), some ("FinancialStatements_FY"), some ("FY"),
    some ⟨2024, 3, 31⟩, none, none, none, none, none, none⟩]

/-- Target statement with a two-year-old peer but no previous-year record. -/
def targetNoPrev : FinancialStatement :=
  ⟨41, "6758", some ("300"), some ("FinancialStatements_2Q"), some ("2Q"),
   some ⟨2025, 3, 31⟩, none, none, some 100, some 50, none, some 5⟩

/-- Same-period peer two fiscal years earlier with a smaller operating
profit. -/
def oldPeer : FinancialStatement :=
  ⟨42, "6758", some ("100"), some ("FinancialStatements_2Q"), some ("2Q"),
   some ⟨2023, 3, 31⟩, none, none, some 80, some 10, none, some 3⟩

/-- Target statement whose previous-year statement exists. -/
def tgt2025 : FinancialStatement :=
  ⟨51, "6758", some ("210"), some ("FinancialStatements_2Q"), some ("2Q"),
   some ⟨2025, 3, 31⟩, none, none, some 100, some 50, none, some 5⟩

/-- The previous-year same-period peer with a smaller operating profit. -/
def peer2024 : FinancialStatement :=
  ⟨52, "6758", some ("200"), some ("FinancialStatements_2Q"), some ("2Q"),
   some ⟨2024, 3, 31⟩, none, none, some 80, some 10, none, some 3⟩

/-- C1: the change-rate function is total on optional inputs: absent if
either input is absent; for a zero previous value it saturates to 0, +100
or -100 by the sign of the current value; otherwise it is exactly
`(c - p) / |p| * 100`. -/
theorem C1_change_rate_cases :
    (∀ p, change_rate none p = none) ∧
    (∀ c, change_rate c none = none) ∧
    change_rate (some 0) (some 0) = some 0 ∧
    (∀ c : ℚ, 0 < c → change_rate (some c) (some 0) = some 100) ∧
    (∀ c : ℚ, c < 0 → change_rate (some c) (some 0) = some (-100)) ∧
    (∀ c p : ℚ, p ≠ 0 → change_rate (some c) (some p) = some ((c - p) / |p| * 100)) := by
  refine ⟨fun p => by cases p <;> rfl, fun c => by cases c <;> rfl, rfl, ?_, ?_, ?_⟩
  · intro c h
    simp [change_rate, h, h.ne']
  · intro c h
    simp [change_rate, h.ne, h.not_lt]
  · intro c p h
    simp [change_rate, h]

/-- Closed instance of C1 at concrete inputs. -/
theorem C1_change_rate_cases_witness :
    change_rate (some 5) (some 0) = some 100 ∧
      change_rate (some 90) (some (-100)) = some ((90 - -100) / |(-100 : ℚ)| * 100) :=
  ⟨C1_change_rate_cases.2.2.2.1 5 (by norm_num),
   C1_change_rate_cases.2.2.2.2.2 90 (-100) (by norm_num)⟩

/-- C8: an absent delta yields sub-score exactly 0.5: each YoY fact scores
`1/(1+e^(-k·delta))` when present and 0.5 when absent, and the acceleration
sub-score is 0.5 with an absent raw acceleration whenever either
operating-profit delta is absent. -/
theorem C8_sigmoid_neutrality :
    (∀ k : ℝ, sigmoid_score none k = 0.5) ∧
    (∀ (x : ℚ) (k : ℝ), sigmoid_score (some x) k = 1 / (1 + Real.exp (-(k * x)))) ∧
    (∀ qoq_op yoy_op : Option ℚ, qoq_op = none ∨ yoy_op = none →
      accel_score qoq_op yoy_op = 0.5 ∧ accel_raw qoq_op yoy_op = none) := by
  refine ⟨fun k => rfl, fun x k => rfl, ?_⟩
  rintro qoq_op yoy_op (rfl | rfl)
  · cases yoy_op <;> exact ⟨rfl, rfl⟩
  · cases qoq_op <;> exact ⟨rfl, rfl⟩

/-- Closed instance of C8 with the QoQ delta absent and the YoY delta
present. -/
theorem C8_sigmoid_neutrality_witness :
    accel_score none (some 1) = 0.5 ∧ accel_raw none (some 1) = none :=
  C8_sigmoid_neutrality.2.2 none (some 1) (Or.inl rfl)

/-- C6: for any deltas, signal list and non-negative weight mapping, the
composite total score lies in `[0, 100]`. -/
theorem C6_score_bounds (w : Weights)
    (yoy_sales yoy_op yoy_profit qoq_op : Option ℚ) (signals : List Signal)
    (hw : 0 ≤ w.yoy_sales ∧ 0 ≤ w.yoy_operating_income ∧ 0 ≤ w.yoy_profit ∧
      0 ≤ w.qoq_acceleration ∧ 0 ≤ w.revision_flag ∧ 0 ≤ w.turnaround_flag) :
    0 ≤ total_score w yoy_sales yoy_op yoy_profit qoq_op signals ∧
      total_score w yoy_sales yoy_op yoy_profit qoq_op signals ≤ 100 := by
  unfold total_score
  exact ⟨le_max_left 0 _, max_le (by norm_num) (min_le_left 100 _)⟩

/-- Closed instance of C6 at the default weights. -/
theorem C6_score_bounds_witness :
    0 ≤ total_score DEFAULT_SCORING_WEIGHTS none none none none [] ∧
      total_score DEFAULT_SCORING_WEIGHTS none none none none [] ≤ 100 :=
  C6_score_bounds DEFAULT_SCORING_WEIGHTS none none none none []
    (by refine ⟨?_, ?_, ?_, ?_, ?_, ?_⟩ <;> norm_num [DEFAULT_SCORING_WEIGHTS])

/-- C7 fails as stated: with all deltas absent and no signals the code
returns `round(12.34, 1) = 12.3`, not the exact clamped weighted sum
`12.34`. -/
theorem C7_counterexample :
    total_score roundingWitnessWeights none none none none [] ≠
      max 0 (min 100
        (weighted_score roundingWitnessWeights none none none none [] * 100)) := by
  have hw : weighted_score roundingWitnessWeights none none none none [] * 100 =
      (12.34 : ℝ) := by
    have h3 : flag_score 0 = 0.5 := by unfold flag_score; norm_num
    unfold weighted_score
    rw [show sigmoid_score none (0.05 : ℝ) = 0.5 from rfl,
      show accel_score none none = 0.5 from rfl,
      show revision_flag_of [] = 0 from rfl,
      show turnaround_flag_of [] = 0 from rfl, h3]
    norm_num [roundingWitnessWeights]
  have hfl : ⌊(10 : ℝ) * 12.34⌋ = 123 := by
    rw [Int.floor_eq_iff]
    push_cast
    norm_num
  have hround : py_round_1 (12.34 : ℝ) = 12.3 := by
    unfold py_round_1
    have hfr : Int.fract ((10 : ℝ) * 12.34) ≠ 1 / 2 := by
      unfold Int.fract
      rw [hfl]
      norm_num
    rw [if_neg hfr, round_eq]
    rw [show (10 : ℝ) * 12.34 + 1 / 2 = 123.9 by norm_num]
    rw [show ⌊(123.9 : ℝ)⌋ = 123 by rw [Int.floor_eq_iff]; push_cast; norm_num]
    norm_num
  unfold total_score
  rw [hw, hround]
  rw [min_eq_right (by norm_num : (12.3 : ℝ) ≤ 100),
    max_eq_right (by norm_num : (0 : ℝ) ≤ (12.3 : ℝ)),
    min_eq_right (by norm_num : (12.34 : ℝ) ≤ 100),
    max_eq_right (by norm_num : (0 : ℝ) ≤ (12.34 : ℝ))]
  norm_num

/-- C7 amended: the composite score equals the sum of the six weighted
sub-scores scaled by 100, rounded to one decimal (ties to even), and then
clamped to `[0, 100]`. -/
theorem C7_amended_composite (w : Weights)
    (yoy_sales yoy_op yoy_profit qoq_op : Option ℚ) (signals : List Signal) :
    total_score w yoy_sales yoy_op yoy_profit qoq_op signals =
      max 0 (min 100 (py_round_1
        ((w.yoy_sales * sigmoid_score yoy_sales 0.05 +
          w.yoy_operating_income * sigmoid_score yoy_op 0.05 +
          w.yoy_profit * sigmoid_score yoy_profit 0.05 +
          w.qoq_acceleration * accel_score qoq_op yoy_op +
          w.revision_flag * flag_score (revision_flag_of signals) +
          w.turnaround_flag * flag_score (turnaround_flag_of signals)) * 100))) := rfl

/-- The result of `find?` only depends on the pointwise behaviour of its predicate. -/
theorem find?_ext {α : Type} (p q : α → Bool) (l : List α)
    (h : ∀ a, p a = q a) : l.find? p = l.find? q := by
  induction l with
  | nil => rfl
  | cons x t ih =>
    simp only [List.find?]
    rw [h x]
    cases q x <;> simp [ih]

theorem period_order_nonneg (x : String) : 0 ≤ period_order x := by
  unfold period_order
  split_ifs <;> norm_num

theorem period_order_eq_one (x : String) : period_order x = 1 ↔ x = "1Q" := by
  unfold period_order
  split_ifs with h1 h2 h3 h4 <;> simp_all

theorem period_order_eq_two (x : String) : period_order x = 2 ↔ x = "2Q" := by
  unfold period_order
  split_ifs with h1 h2 h3 h4 <;> simp_all

theorem period_order_eq_three (x : String) : period_order x = 3 ↔ x = "3Q" := by
  unfold period_order
  split_ifs with h1 h2 h3 h4 <;> simp_all

/-- Option-level version: comparing the period label against the unique
label of a given nonzero rank. -/
theorem period_beq_rank (o : Option String) (lbl : String) (n : Int)
    (hiff : ∀ x, period_order x = n ↔ x = lbl) (hne : n ≠ 0) :
    (o == some lbl) = decide (period_order (o.getD ("")) = n) := by
  cases o with
  | none =>
    have h0 : period_order ("") = 0 := rfl
    simp [h0, Ne.symm hne]
  | some x =>
    by_cases h : x = lbl
    · simp [h, (hiff lbl).mpr rfl]
    · have : ¬ period_order x = n := fun hc => h ((hiff x).mp hc)
      simp [h, this]

/-- Unfolding of the quarter matcher at present metadata. -/
theorem find_prev_quarter_unfold (stmts : List FinancialStatement)
    (cur : FinancialStatement) (d : PyDate) (p : String)
    (hd : cur.current_fiscal_year_end_date = some d)
    (hp : cur.type_of_current_period = some p) :
    find_previous_quarter_statement stmts cur =
      (if p = "" then none
       else if period_order p = 0 then none
       else if period_order p = 1 then
         stmts.find? (qoq_match (d.year - 1) "FY" cur)
       else stmts.find? (qoq_match d.year (rev_period (period_order p - 1)) cur)) := by
  unfold find_previous_quarter_statement
  rw [hp, hd]

/-- Unfolding of the spec-side predicate at present metadata. -/
theorem qoqSpecMatch_unfold (cur s : FinancialStatement) (d : PyDate) (p : String)
    (hd : cur.current_fiscal_year_end_date = some d)
    (hp : cur.type_of_current_period = some p) :
    qoqSpecMatch cur s =
      (match s.current_fiscal_year_end_date with
       | none => false
       | some d' =>
         (if p = "1Q" then
            decide (d'.year = d.year - 1) && (s.type_of_current_period == some ("FY"))
          else
            decide (d'.year = d.year) &&
              decide (period_order (s.type_of_current_period.getD ("")) =
                period_order p - 1)) &&
           decide (s.id ≠ cur.id)) := by
  unfold qoqSpecMatch
  rw [hd, hp]

/-- Shared core of C3: with present metadata the quarter matcher is exactly
`find?` of the QoQ predecessor rule of the specification. -/
theorem find_prev_quarter_eq_spec (stmts : List FinancialStatement)
    (cur : FinancialStatement) (d : PyDate) (p : String)
    (hd : cur.current_fiscal_year_end_date = some d)
    (hp : cur.type_of_current_period = some p) :
    find_previous_quarter_statement stmts cur =
      stmts.find? (qoqSpecMatch cur) := by
  rw [find_prev_quarter_unfold stmts cur d p hd hp]
  by_cases h1 : p = "1Q"
  · subst h1
    rw [if_neg (by decide), if_neg (by decide), if_pos (by decide)]
    refine find?_ext _ _ _ fun s => ?_
    rw [qoqSpecMatch_unfold cur s d ("1Q") hd hp]
    unfold qoq_match
    cases s.current_fiscal_year_end_date with
    | none => rfl
    | some d' => simp [Bool.and_assoc]
  · by_cases h2 : p = "2Q"
    · subst h2
      rw [if_neg (by decide), if_neg (by decide), if_neg (by decide)]
      refine find?_ext _ _ _ fun s => ?_
      rw [qoqSpecMatch_unfold cur s d ("2Q") hd hp]
      unfold qoq_match
      cases s.current_fiscal_year_end_date with
      | none => rfl
      | some d' =>
        simp [show rev_period (period_order ("2Q") - 1) = "1Q" from rfl,
          show rev_period 1 = "1Q" from rfl,
          show period_order ("2Q") - 1 = 1 from rfl,
          period_beq_rank s.type_of_current_period ("1Q") 1 period_order_eq_one
            (by decide),
          Bool.and_assoc]
    · by_cases h3 : p = "3Q"
      · subst h3
        rw [if_neg (by decide), if_neg (by decide), if_neg (by decide)]
        refine find?_ext _ _ _ fun s => ?_
        rw [qoqSpecMatch_unfold cur s d ("3Q") hd hp]
        unfold qoq_match
        cases s.current_fiscal_year_end_date with
        | none => rfl
        | some d' =>
          simp [show rev_period (period_order ("3Q") - 1) = "2Q" from rfl,
            show rev_period 2 = "2Q" from rfl,
            show period_order ("3Q") - 1 = 2 from rfl,
            period_beq_rank s.type_of_current_period ("2Q") 2 period_order_eq_two
              (by decide),
            Bool.and_assoc]
      · by_cases h4 : p = "FY"
        · subst h4
          rw [if_neg (by decide), if_neg (by decide), if_neg (by decide)]
          refine find?_ext _ _ _ fun s => ?_
          rw [qoqSpecMatch_unfold cur s d ("FY") hd hp]
          unfold qoq_match
          cases s.current_fiscal_year_end_date with
          | none => rfl
          | some d' =>
            simp [show rev_period (period_order ("FY") - 1) = "3Q" from rfl,
              show rev_period 3 = "3Q" from rfl,
              show period_order ("FY") - 1 = 3 from rfl,
              period_beq_rank s.type_of_current_period ("3Q") 3 period_order_eq_three
                (by decide),
              Bool.and_assoc]
        · have h0 : period_order p = 0 := by
            unfold period_order
            rw [if_neg h1, if_neg h2, if_neg h3, if_neg h4]
          have hnone : ∀ s, qoqSpecMatch cur s = false := by
            intro s
            rw [qoqSpecMatch_unfold cur s d p hd hp]
            cases s.current_fiscal_year_end_date with
            | none => rfl
            | some d' =>
              have hneg : ¬ period_order (s.type_of_current_period.getD ("")) =
                  period_order p - 1 := by
                rw [h0]
                have := period_order_nonneg (s.type_of_current_period.getD (""))
                omega
              simp [h1, hneg]
          have hfind : List.find? (qoqSpecMatch cur) stmts = none :=
            List.find?_eq_none.mpr fun s _ => by
              rw [hnone s]
              exact Bool.false_ne_true
          rw [hfind]
          by_cases he : p = ""
          · rw [if_pos he]
          · rw [if_neg he, if_pos h0]

/-- C3: for a target with present fiscal-year-end date and period-type, the
quarter matcher returns the first canonical-sequence statement selected by
the rule "period rank one less within the same fiscal-year-end year,
except a 1Q target, whose predecessor is the prior-year FY record". -/
theorem C3_qoq_rule (stmts : List FinancialStatement)
    (cur : FinancialStatement) (d : PyDate) (p : String)
    (hd : cur.current_fiscal_year_end_date = some d)
    (hp : cur.type_of_current_period = some p) :
    find_previous_quarter_statement stmts cur =
      stmts.find? (qoqSpecMatch cur) :=
  find_prev_quarter_eq_spec stmts cur d p hd hp

/-- Closed instance of C3: the 1Q target picks the prior-year FY record. -/
theorem C3_qoq_rule_witness :
    find_previous_quarter_statement [priorFYStatement, oneQStatement] oneQStatement =
      List.find? (qoqSpecMatch oneQStatement) [priorFYStatement, oneQStatement] :=
  C3_qoq_rule [priorFYStatement, oneQStatement] oneQStatement ⟨2025, 3, 31⟩ "1Q" rfl rfl

/-- C9: both matchers return the absence marker whenever the target
fiscal-year-end date or period-type is missing (Python-falsy), and
whenever no statement in the sequence satisfies the computed target key. -/
theorem C9_matcher_absence (stmts : List FinancialStatement)
    (cur : FinancialStatement) :
    (cur.current_fiscal_year_end_date = none ∨ cur.type_of_current_period = none ∨
        cur.type_of_current_period = some ("") →
      find_previous_year_statement stmts cur = none ∧
        find_previous_quarter_statement stmts cur = none) ∧
    ((∀ s ∈ stmts, yoy_match cur s = false) →
      find_previous_year_statement stmts cur = none) ∧
    ((∀ s ∈ stmts, qoqSpecMatch cur s = false) →
      find_previous_quarter_statement stmts cur = none) := by
  refine ⟨?_, ?_, ?_⟩
  · intro h
    unfold find_previous_year_statement find_previous_quarter_statement
    rcases h with h | h | h <;>
      cases hfy : cur.current_fiscal_year_end_date <;>
        cases hper : cur.type_of_current_period <;> simp_all
  · intro h
    unfold find_previous_year_statement
    cases cur.current_fiscal_year_end_date with
    | none => cases cur.type_of_current_period <;> rfl
    | some d =>
      cases cur.type_of_current_period with
      | none => rfl
      | some p =>
        have hfind : stmts.find? (yoy_match cur) = none :=
          List.find?_eq_none.mpr fun s hs => by
            rw [h s hs]
            exact Bool.false_ne_true
        by_cases he : p = ""
        · simp [he]
        · simp [he, hfind]
  · intro h
    cases hfy : cur.current_fiscal_year_end_date with
    | none =>
      unfold find_previous_quarter_statement
      rw [hfy]
      cases cur.type_of_current_period <;> rfl
    | some d =>
      cases hper : cur.type_of_current_period with
      | none =>
        unfold find_previous_quarter_statement
        rw [hper, hfy]
      | some p =>
        rw [find_prev_quarter_eq_spec stmts cur d p hfy hper]
        exact List.find?_eq_none.mpr fun s hs => by
          rw [h s hs]
          exact Bool.false_ne_true

/-- Closed instance of C9 at a statement with a missing period-type. -/
theorem C9_matcher_absence_witness :
    find_previous_year_statement [priorFYStatement]
        ⟨3, "7974", none, none, none, some ⟨2025, 3, 31⟩, none, none,
          none, none, none, none⟩ = none ∧
      find_previous_quarter_statement [priorFYStatement]
        ⟨3, "7974", none, none, none, some ⟨2025, 3, 31⟩, none, none,
          none, none, none, none⟩ = none :=
  (C9_matcher_absence [priorFYStatement] _).1 (Or.inr (Or.inl rfl))

/-- Every entry after one dict update is an old entry or stores the new
statement. -/
theorem dictUpd_mem (acc : List ((Option PyDate × String) × FinancialStatement))
    (s : FinancialStatement) :
    ∀ p ∈ dictUpd acc s, p ∈ acc ∨ p.2 = s := by
  induction acc with
  | nil =>
    intro p hp
    simp only [dictUpd, List.mem_singleton] at hp
    exact Or.inr (by rw [hp])
  | cons q rest ih =>
    obtain ⟨k, e⟩ := q
    intro p hp
    by_cases hk : k = dKey s
    · rw [dictUpd, if_pos hk] at hp
      rcases List.mem_cons.mp hp with h | h
      · by_cases hlt : discNo e < discNo s
        · rw [if_pos hlt] at h
          exact Or.inr (by rw [h])
        · rw [if_neg hlt] at h
          exact Or.inl (h ▸ List.mem_cons_self _ _)
      · exact Or.inl (List.mem_cons_of_mem _ h)
    · rw [dictUpd, if_neg hk] at hp
      rcases List.mem_cons.mp hp with h | h
      · exact Or.inl (h ▸ List.mem_cons_self _ _)
      · rcases ih p h with h' | h'
        · exact Or.inl (List.mem_cons_of_mem _ h')
        · exact Or.inr h'

/-- The key list after one dict update: unchanged when the key was present,
extended by the new key otherwise. -/
theorem dictUpd_fst (acc : List ((Option PyDate × String) × FinancialStatement))
    (s : FinancialStatement) :
    (dictUpd acc s).map Prod.fst =
      (if dKey s ∈ acc.map Prod.fst then acc.map Prod.fst
       else acc.map Prod.fst ++ [dKey s]) := by
  induction acc with
  | nil => simp [dictUpd]
  | cons q rest ih =>
    obtain ⟨k, e⟩ := q
    by_cases hk : k = dKey s
    · rw [dictUpd, if_pos hk]
      by_cases hlt : discNo e < discNo s
      · simp [hlt, hk]
      · simp [hlt, hk]
    · rw [dictUpd, if_neg hk]
      have hne : ¬ dKey s = k := fun h => hk h.symm
      by_cases hmem : dKey s ∈ rest.map Prod.fst
      · simp [hmem, hne, ih]
      · simp [hmem, hne, ih]

/-- Coherence: every entry is stored under its own dedup key. -/
theorem dictUpd_coherent
    (acc : List ((Option PyDate × String) × FinancialStatement))
    (s : FinancialStatement) (hc : ∀ p ∈ acc, p.1 = dKey p.2) :
    ∀ p ∈ dictUpd acc s, p.1 = dKey p.2 := by
  induction acc with
  | nil =>
    intro p hp
    simp only [dictUpd, List.mem_singleton] at hp
    rw [hp]
  | cons q rest ih =>
    obtain ⟨k, e⟩ := q
    intro p hp
    by_cases hk : k = dKey s
    · rw [dictUpd, if_pos hk] at hp
      rcases List.mem_cons.mp hp with h | h
      · by_cases hlt : discNo e < discNo s
        · rw [if_pos hlt] at h
          rw [h, hk]
        · rw [if_neg hlt] at h
          exact h ▸ hc _ (List.mem_cons_self _ _)
      · exact hc _ (List.mem_cons_of_mem _ h)
    · rw [dictUpd, if_neg hk] at hp
      rcases List.mem_cons.mp hp with h | h
      · exact h ▸ hc _ (List.mem_cons_self _ _)
      · exact ih (fun r hr => hc r (List.mem_cons_of_mem _ hr)) p h

/-- The dict update preserves distinctness of keys. -/
theorem dictUpd_nodup
    (acc : List ((Option PyDate × String) × FinancialStatement))
    (s : FinancialStatement) (hn : (acc.map Prod.fst).Nodup) :
    ((dictUpd acc s).map Prod.fst).Nodup := by
  rw [dictUpd_fst]
  by_cases hmem : dKey s ∈ acc.map Prod.fst
  · simpa [hmem] using hn
  · simp only [hmem, if_false]
    exact List.Nodup.append hn (List.nodup_singleton _)
      (List.disjoint_singleton.mpr hmem)

/-- After the update the new key is present. -/
theorem dictUpd_hasKey
    (acc : List ((Option PyDate × String) × FinancialStatement))
    (s : FinancialStatement) :
    dKey s ∈ (dictUpd acc s).map Prod.fst := by
  rw [dictUpd_fst]
  by_cases hmem : dKey s ∈ acc.map Prod.fst
  · simpa [hmem] using hmem
  · simp [hmem]

/-- The update never removes a key. -/
theorem dictUpd_keeps_keys
    (acc : List ((Option PyDate × String) × FinancialStatement))
    (s : FinancialStatement) (k : Option PyDate × String)
    (hk : k ∈ acc.map Prod.fst) :
    k ∈ (dictUpd acc s).map Prod.fst := by
  rw [dictUpd_fst]
  by_cases hmem : dKey s ∈ acc.map Prod.fst
  · simpa [hmem] using hk
  · simp [hmem, hk]

/-- With distinct keys, every entry stored under the inserted key carries a
disclosure number at least that of the inserted statement. -/
theorem dictUpd_entry_ge
    (acc : List ((Option PyDate × String) × FinancialStatement))
    (s : FinancialStatement) (hn : (acc.map Prod.fst).Nodup) :
    ∀ p ∈ dictUpd acc s, p.1 = dKey s → discNo s ≤ discNo p.2 := by
  induction acc with
  | nil =>
    intro p hp _
    simp only [dictUpd, List.mem_singleton] at hp
    rw [hp]
  | cons q rest ih =>
    obtain ⟨k, e⟩ := q
    simp only [List.map_cons, List.nodup_cons] at hn
    intro p hp hkey
    by_cases hk : k = dKey s
    · rw [dictUpd, if_pos hk] at hp
      rcases List.mem_cons.mp hp with h | h
      · by_cases hlt : discNo e < discNo s
        · rw [if_pos hlt] at h
          exact le_of_eq (by rw [h])
        · rw [if_neg hlt] at h
          rw [h]
          exact le_of_not_lt hlt
      · exfalso
        apply hn.1
        rw [← hk] at hkey
        exact hkey ▸ List.mem_map_of_mem Prod.fst h
    · rw [dictUpd, if_neg hk] at hp
      rcases List.mem_cons.mp hp with h | h
      · exfalso
        exact hk (by rw [← hkey, h])
      · exact ih hn.2 p h hkey

/-- Monotone growth: an existing entry survives one update with the same
key and a disclosure number at least as large. -/
theorem dictUpd_entry_preserve
    (acc : List ((Option PyDate × String) × FinancialStatement))
    (s : FinancialStatement) :
    ∀ p ∈ acc, ∃ p' ∈ dictUpd acc s, p'.1 = p.1 ∧ discNo p.2 ≤ discNo p'.2 := by
  induction acc with
  | nil => intro p hp; exact absurd hp (List.not_mem_nil p)
  | cons q rest ih =>
    obtain ⟨k, e⟩ := q
    intro p hp
    by_cases hk : k = dKey s
    · rcases List.mem_cons.mp hp with h | h
      · by_cases hlt : discNo e < discNo s
        · refine ⟨(k, s), ?_, ?_, ?_⟩
          · rw [dictUpd, if_pos hk, if_pos hlt]
            exact List.mem_cons_self _ _
          · rw [h]
          · rw [h]
            exact le_of_lt hlt
        · refine ⟨(k, e), ?_, ?_, ?_⟩
          · rw [dictUpd, if_pos hk, if_neg hlt]
            exact List.mem_cons_self _ _
          · rw [h]
          · rw [h]
      · refine ⟨p, ?_, rfl, le_refl _⟩
        rw [dictUpd, if_pos hk]
        by_cases hlt : discNo e < discNo s
        · rw [if_pos hlt]; exact List.mem_cons_of_mem _ h
        · rw [if_neg hlt]; exact List.mem_cons_of_mem _ h
    · rcases List.mem_cons.mp hp with h | h
      · refine ⟨(k, e), ?_, by rw [h], by rw [h]⟩
        rw [dictUpd, if_neg hk]
        exact List.mem_cons_self _ _
      · obtain ⟨p', hp', hkey, hle⟩ := ih p h
        refine ⟨p', ?_, hkey, hle⟩
        rw [dictUpd, if_neg hk]
        exact List.mem_cons_of_mem _ hp'

/-- Folding the dict update: every entry comes from the accumulator or
stores a folded statement. -/
theorem fold_mem (l : List FinancialStatement) :
    ∀ acc, ∀ p ∈ l.foldl dictUpd acc, p ∈ acc ∨ p.2 ∈ l := by
  induction l with
  | nil => intro acc p hp; exact Or.inl hp
  | cons x t ih =>
    intro acc p hp
    rw [List.foldl_cons] at hp
    rcases ih (dictUpd acc x) p hp with h | h
    · rcases dictUpd_mem acc x p h with h' | h'
      · exact Or.inl h'
      · exact Or.inr (h' ▸ List.mem_cons_self _ _)
    · exact Or.inr (List.mem_cons_of_mem _ h)

/-- Folding preserves coherence of keys. -/
theorem fold_coherent (l : List FinancialStatement) :
    ∀ acc, (∀ p ∈ acc, p.1 = dKey p.2) →
      ∀ p ∈ l.foldl dictUpd acc, p.1 = dKey p.2 := by
  induction l with
  | nil => intro acc hc p hp; exact hc p hp
  | cons x t ih =>
    intro acc hc p hp
    rw [List.foldl_cons] at hp
    exact ih (dictUpd acc x) (dictUpd_coherent acc x hc) p hp

/-- Folding preserves distinctness of keys. -/
theorem fold_nodup (l : List FinancialStatement) :
    ∀ acc, (acc.map Prod.fst).Nodup →
      ((l.foldl dictUpd acc).map Prod.fst).Nodup := by
  induction l with
  | nil => intro acc hn; exact hn
  | cons x t ih =>
    intro acc hn
    rw [List.foldl_cons]
    exact ih (dictUpd acc x) (dictUpd_nodup acc x hn)

/-- Folding never removes a key. -/
theorem fold_keeps_keys (l : List FinancialStatement) :
    ∀ acc (k : Option PyDate × String), k ∈ acc.map Prod.fst →
      k ∈ (l.foldl dictUpd acc).map Prod.fst := by
  induction l with
  | nil => intro acc k hk; exact hk
  | cons x t ih =>
    intro acc k hk
    rw [List.foldl_cons]
    exact ih (dictUpd acc x) k (dictUpd_keeps_keys acc x k hk)

/-- The key of every folded statement ends up in the dictionary. -/
theorem fold_cover (l : List FinancialStatement) :
    ∀ acc, ∀ s ∈ l, dKey s ∈ (l.foldl dictUpd acc).map Prod.fst := by
  induction l with
  | nil => intro acc s hs; exact absurd hs (List.not_mem_nil s)
  | cons x t ih =>
    intro acc s hs
    rw [List.foldl_cons]
    rcases List.mem_cons.mp hs with h | h
    · exact h ▸ fold_keeps_keys t (dictUpd acc x) (dKey x) (dictUpd_hasKey acc x)
    · exact ih (dictUpd acc x) s h

/-- Monotone growth through a whole fold. -/
theorem fold_preserve (l : List FinancialStatement) :
    ∀ acc, ∀ p ∈ acc, ∃ p' ∈ l.foldl dictUpd acc,
      p'.1 = p.1 ∧ discNo p.2 ≤ discNo p'.2 := by
  induction l with
  | nil => intro acc p hp; exact ⟨p, hp, rfl, le_refl _⟩
  | cons x t ih =>
    intro acc p hp
    obtain ⟨q, hq, hqk, hqle⟩ := dictUpd_entry_preserve acc x p hp
    obtain ⟨p', hp', hk', hle'⟩ := ih (dictUpd acc x) q hq
    rw [List.foldl_cons]
    exact ⟨p', hp', by rw [hk', hqk], le_trans hqle hle'⟩

/-- With distinct keys, two entries sharing a key are equal. -/
theorem entries_key_inj {β : Type}
    (l : List ((Option PyDate × String) × β))
    (hn : (l.map Prod.fst).Nodup) :
    ∀ p ∈ l, ∀ q ∈ l, p.1 = q.1 → p = q := by
  induction l with
  | nil => intro p hp; exact absurd hp (List.not_mem_nil p)
  | cons a rest ih =>
    simp only [List.map_cons, List.nodup_cons] at hn
    intro p hp q hq hkey
    rcases List.mem_cons.mp hp with h | h <;> rcases List.mem_cons.mp hq with h' | h'
    · rw [h, h']
    · exfalso
      apply hn.1
      rw [h] at hkey
      exact hkey ▸ List.mem_map_of_mem Prod.fst h'
    · exfalso
      apply hn.1
      rw [h'] at hkey
      exact hkey.symm ▸ List.mem_map_of_mem Prod.fst h
    · exact ih hn.2 p h q h' hkey

/-- Max property of the fold: any final entry dominates, in disclosure
number, every folded statement sharing its key. -/
theorem fold_max (l : List FinancialStatement) :
    ∀ acc, (acc.map Prod.fst).Nodup → (∀ p ∈ acc, p.1 = dKey p.2) →
      ∀ p ∈ l.foldl dictUpd acc, ∀ s ∈ l, dKey s = p.1 →
        discNo s ≤ discNo p.2 := by
  induction l with
  | nil => intro acc _ _ p _ s hs; exact absurd hs (List.not_mem_nil s)
  | cons x t ih =>
    intro acc hn hc p hp s hs hkey
    rw [List.foldl_cons] at hp
    have hn' : ((dictUpd acc x).map Prod.fst).Nodup := dictUpd_nodup acc x hn
    have hc' : ∀ q ∈ dictUpd acc x, q.1 = dKey q.2 := dictUpd_coherent acc x hc
    rcases List.mem_cons.mp hs with h | h
    · subst h
      obtain ⟨q, hq, hqkey⟩ : ∃ q ∈ dictUpd acc s, q.1 = dKey s := by
        obtain ⟨q, hq, hqf⟩ := List.mem_map.mp (dictUpd_hasKey acc s)
        exact ⟨q, hq, hqf⟩
      have hge : discNo s ≤ discNo q.2 := dictUpd_entry_ge acc s hn q hq hqkey
      obtain ⟨q', hq', hq'k, hq'le⟩ := fold_preserve t (dictUpd acc s) q hq
      have : p = q' := by
        apply entries_key_inj _ (fold_nodup t (dictUpd acc s) hn') p hp q' hq'
        rw [hq'k, hqkey, hkey]
      rw [this]
      exact le_trans hge hq'le
    · exact ih (dictUpd acc x) hn' hc' p hp s h hkey

/-- Counting lemma: with distinct keys and a present key, exactly one
entry carries that key. -/
theorem entries_count_one {β : Type}
    (l : List ((Option PyDate × String) × β)) (k : Option PyDate × String)
    (hn : (l.map Prod.fst).Nodup) (hk : k ∈ l.map Prod.fst) :
    (l.filter fun p => decide (p.1 = k)).length = 1 := by
  induction l with
  | nil => exact absurd hk (List.not_mem_nil k)
  | cons a rest ih =>
    simp only [List.map_cons, List.nodup_cons] at hn
    by_cases ha : a.1 = k
    · have hrest : (rest.filter fun p => decide (p.1 = k)).length = 0 := by
        rw [List.length_eq_zero, List.filter_eq_nil]
        intro q hq
        simp only [decide_eq_true_eq]
        intro hqk
        exact hn.1 (ha ▸ hqk ▸ List.mem_map_of_mem Prod.fst hq)
      simp [List.filter_cons, ha, hrest]
    · have hk' : k ∈ rest.map Prod.fst := by
        rcases List.mem_map.mp hk with ⟨q, hq, hqk⟩
        rcases List.mem_cons.mp hq with h | h
        · exact absurd (h ▸ hqk) ha
        · exact hqk ▸ List.mem_map_of_mem Prod.fst h
      simp [List.filter_cons, ha, ih hn.2 hk']

/-- Membership in the canonical sequence implies membership in the raw
records and earnings classification. -/
theorem canonical_mem (records : List FinancialStatement) :
    ∀ t ∈ get_statements_for_code records,
      t ∈ records ∧ is_earnings_statement t.type_of_document = true := by
  intro t ht
  unfold get_statements_for_code at ht
  have hperm := List.perm_insertionSort chronoLe
    ((dictFold (records.filter fun s => is_earnings_statement s.type_of_document)).map
      Prod.snd)
  have hval : t ∈ (dictFold (records.filter fun s =>
      is_earnings_statement s.type_of_document)).map Prod.snd :=
    hperm.mem_iff.mp ht
  obtain ⟨p, hp, hp2⟩ := List.mem_map.mp hval
  have := fold_mem (records.filter fun s => is_earnings_statement s.type_of_document)
    [] p hp
  rcases this with h | h
  · exact absurd h (List.not_mem_nil p)
  · rw [hp2] at h
    exact ⟨(List.mem_filter.mp h).1, (List.mem_filter.mp h).2⟩

/-- C2: the resolver output contains only earnings-classified statements
drawn from the input, and for every earnings-classified input statement its
dedup key is represented by exactly one output statement, whose disclosure
identifier is lexically greatest within the key group. -/
theorem C2_resolver (records : List FinancialStatement) :
    (∀ t ∈ get_statements_for_code records,
      t ∈ records ∧ is_earnings_statement t.type_of_document = true) ∧
    (∀ s ∈ records, is_earnings_statement s.type_of_document = true →
      ((get_statements_for_code records).filter fun t =>
        decide (dKey t = dKey s)).length = 1 ∧
      ∀ t ∈ get_statements_for_code records, dKey t = dKey s →
        discNo s ≤ discNo t) := by
  constructor
  · exact canonical_mem records
  · intro s hs hE
    have hsE : s ∈ records.filter fun r => is_earnings_statement r.type_of_document :=
      List.mem_filter.mpr ⟨hs, hE⟩
    have hnil : (([] : List ((Option PyDate × String) × FinancialStatement)).map
        Prod.fst).Nodup := List.nodup_nil
    have hnodup := fold_nodup
      (records.filter fun r => is_earnings_statement r.type_of_document) [] hnil
    have hcoh := fold_coherent
      (records.filter fun r => is_earnings_statement r.type_of_document) []
      (fun p hp => absurd hp (List.not_mem_nil p))
    have hperm := List.perm_insertionSort chronoLe
      ((dictFold (records.filter fun r =>
        is_earnings_statement r.type_of_document)).map Prod.snd)
    constructor
    · have hkmem := fold_cover
        (records.filter fun r => is_earnings_statement r.type_of_document) [] s hsE
      have hcnt := entries_count_one
        (dictFold (records.filter fun r => is_earnings_statement r.type_of_document))
        (dKey s) hnodup hkmem
      have hlen := (hperm.filter fun t => decide (dKey t = dKey s)).length_eq
      unfold get_statements_for_code
      rw [hlen, List.filter_map, List.length_map]
      rw [List.filter_congr fun p hp => ?_] at hcnt
      · exact hcnt
      · show decide (p.1 = dKey s) = decide (dKey p.2 = dKey s)
        rw [hcoh p hp]
    · intro t ht hkey
      have hval : t ∈ (dictFold (records.filter fun r =>
          is_earnings_statement r.type_of_document)).map Prod.snd :=
        hperm.mem_iff.mp ht
      obtain ⟨p, hp, hp2⟩ := List.mem_map.mp hval
      have hmax := fold_max
        (records.filter fun r => is_earnings_statement r.type_of_document)
        [] hnil (fun q hq => absurd hq (List.not_mem_nil q)) p hp s hsE
        (by rw [hcoh p hp, hp2, hkey])
      rw [← hp2]
      exact hmax

/-- Closed instance of C2 on the "100" vs "101" correction pair. -/
theorem C2_resolver_witness :
    ((get_statements_for_code [stmtDisc100, stmtDisc101]).filter fun t =>
      decide (dKey t = dKey stmtDisc100)).length = 1 ∧
    (∀ t ∈ get_statements_for_code [stmtDisc100, stmtDisc101],
      dKey t = dKey stmtDisc100 → discNo stmtDisc100 ≤ discNo t) :=
  (C2_resolver [stmtDisc100, stmtDisc101]).2 stmtDisc100 (by decide) (by decide)

theorem chronoKeyLt_of_le_ne (x y : PyDate × Int)
    (hle : chronoKeyLeB x y = true) (hne : x ≠ y) : chronoKeyLt x y := by
  obtain ⟨⟨ya, ma, da⟩, na⟩ := x
  obtain ⟨⟨yb, mb, db⟩, nb⟩ := y
  simp only [chronoKeyLeB, PyDate.ltB, Bool.or_eq_true, Bool.and_eq_true,
    decide_eq_true_eq, PyDate.mk.injEq, ne_eq, Prod.mk.injEq, not_and] at hle hne
  unfold chronoKeyLt
  simp only [PyDate.ltB, Bool.or_eq_true, Bool.and_eq_true, decide_eq_true_eq,
    PyDate.mk.injEq]
  by_cases hy : ya = yb <;> by_cases hm : ma = mb <;> by_cases hd : da = db <;>
    simp_all <;> omega

/-- Nonzero period ranks determine the label. -/
theorem period_order_inj (x y : String) (hx : period_order x ≠ 0)
    (hxy : period_order x = period_order y) : x = y := by
  unfold period_order at hx hxy
  split_ifs at hx hxy <;> simp_all

/-- C5 fails as stated: two surviving records with non-canonical period
labels share the sort key, so the canonical sequence is not strictly
ordered. -/
theorem C5_counterexample :
    ¬ StrictChrono (get_statements_for_code [oddPeriodA, oddPeriodB]) := by
  decide

/-- C5 amended: when every raw record carries a present fiscal-year-end
date and a canonical period-type label (rank nonzero), the canonical
sequence is strictly ordered by (fiscal-year-end date, period rank). -/
theorem C5_amended_strict_order (records : List FinancialStatement)
    (h : ∀ s ∈ records, s.current_fiscal_year_end_date ≠ none ∧
      period_order (s.type_of_current_period.getD ("")) ≠ 0) :
    StrictChrono (get_statements_for_code records) := by
  have hnil : (([] : List ((Option PyDate × String) × FinancialStatement)).map
      Prod.fst).Nodup := List.nodup_nil
  have hnodup := fold_nodup
    (records.filter fun r => is_earnings_statement r.type_of_document) [] hnil
  have hcoh := fold_coherent
    (records.filter fun r => is_earnings_statement r.type_of_document) []
    (fun p hp => absurd hp (List.not_mem_nil p))
  have hperm := List.perm_insertionSort chronoLe
    ((dictFold (records.filter fun r =>
      is_earnings_statement r.type_of_document)).map Prod.snd)
  have hsorted : (get_statements_for_code records).Pairwise chronoLe :=
    List.sorted_insertionSort chronoLe _
  have hkeymap : (dictFold (records.filter fun r =>
      is_earnings_statement r.type_of_document)).map Prod.fst =
      ((dictFold (records.filter fun r =>
        is_earnings_statement r.type_of_document)).map Prod.snd).map dKey := by
    rw [List.map_map]
    exact List.map_congr_left hcoh
  have hvalsnodup : (((dictFold (records.filter fun r =>
      is_earnings_statement r.type_of_document)).map Prod.snd).map dKey).Nodup := by
    rw [← hkeymap]
    exact hnodup
  have hpairne : ((dictFold (records.filter fun r =>
      is_earnings_statement r.type_of_document)).map Prod.snd).Pairwise
      fun a b => dKey a ≠ dKey b := List.pairwise_map.mp hvalsnodup
  have houtne : (get_statements_for_code records).Pairwise
      fun a b => dKey a ≠ dKey b := by
    refine hpairne.perm hperm.symm ?_
    intro x y hxy
    exact fun hc => hxy hc.symm
  have hcomb := hsorted.and houtne
  refine hcomb.imp_of_mem ?_
  intro a b ha hb hab
  obtain ⟨hle, hne⟩ := hab
  have hmema := canonical_mem records a ha
  have hmemb := canonical_mem records b hb
  obtain ⟨hfya, hpa⟩ := h a hmema.1
  obtain ⟨hfyb, hpb⟩ := h b hmemb.1
  refine chronoKeyLt_of_le_ne _ _ hle ?_
  intro hkeq
  apply hne
  obtain ⟨da, hda⟩ := Option.ne_none_iff_exists'.mp hfya
  obtain ⟨db, hdb⟩ := Option.ne_none_iff_exists'.mp hfyb
  have hk1 : chronoKey a = (da, period_order (a.type_of_current_period.getD (""))) := by
    unfold chronoKey
    rw [hda]
    rfl
  have hk2 : chronoKey b = (db, period_order (b.type_of_current_period.getD (""))) := by
    unfold chronoKey
    rw [hdb]
    rfl
  rw [hk1, hk2, Prod.mk.injEq] at hkeq
  have hdate : da = db := hkeq.1
  have hper : a.type_of_current_period.getD ("") = b.type_of_current_period.getD ("") :=
    period_order_inj _ _ hpa hkeq.2
  unfold dKey
  rw [hda, hdb, hdate, hper]

/-- Closed instance of the amended C5 on well-formed records. -/
theorem C5_amended_strict_order_witness :
    StrictChrono (get_statements_for_code cleanRecords) :=
  C5_amended_strict_order cleanRecords (by decide)

theorem recordHigh_not_bigMoveTag (lbl : String) (v : Option ℚ) :
    Signal.recordHigh ∉ bigMoveTag lbl v := by
  unfold bigMoveTag
  cases v with
  | none => simp
  | some x =>
    show Signal.recordHigh ∉
      (if 30 ≤ x then [Signal.bigIncrease lbl x]
       else if x ≤ -30 then [Signal.bigDecrease lbl x] else [])
    split_ifs <;> simp

theorem recordHigh_not_bigMoveTags (y : YoYResult) :
    Signal.recordHigh ∉ bigMoveTags y := by
  unfold bigMoveTags
  simp [List.mem_append, recordHigh_not_bigMoveTag]

theorem recordHigh_not_turnTags (cur p : FinancialStatement) :
    Signal.recordHigh ∉ turnTags cur p := by
  unfold turnTags
  cases cur.profit with
  | none => simp
  | some c =>
    cases p.profit with
    | none => simp
    | some q =>
      show Signal.recordHigh ∉
        (if q < 0 ∧ 0 ≤ c then [Signal.turnProfitable]
         else if 0 ≤ q ∧ c < 0 then [Signal.turnUnprofitable] else [])
      split_ifs <;> simp

theorem compareYoY_previous (stmts : List FinancialStatement)
    (cur : FinancialStatement) :
    (compare_year_over_year stmts cur).previous =
      find_previous_year_statement stmts cur := by
  unfold compare_year_over_year
  cases find_previous_year_statement stmts cur <;> rfl

theorem find_prev_year_nil (cur : FinancialStatement) :
    find_previous_year_statement [] cur = none := by
  unfold find_previous_year_statement
  cases cur.current_fiscal_year_end_date <;> cases cur.type_of_current_period <;>
    simp

theorem recordHigh_mem_recordTags (stmts : List FinancialStatement)
    (cur : FinancialStatement) (v : ℚ) (hop : cur.operating_profit = some v) :
    (Signal.recordHigh ∈ recordTags stmts cur ↔
      samePeriodGroup stmts cur ≠ [] ∧
      maxOpOf ((samePeriodGroup stmts cur).filterMap
        FinancialStatement.operating_profit) < v) := by
  unfold recordTags
  rw [hop]
  by_cases hg : (samePeriodGroup stmts cur).isEmpty
  · have : samePeriodGroup stmts cur = [] := List.isEmpty_iff.mp hg
    simp [hg, this]
  · have hne : samePeriodGroup stmts cur ≠ [] :=
      fun hc => hg (by rw [hc]; rfl)
    by_cases hmax : maxOpOf ((samePeriodGroup stmts cur).filterMap
        FinancialStatement.operating_profit) < v
    · simp [hg, hmax, hne]
    · simp [hg, hmax, hne]

/-- C4 fails as stated: the record-high comparison set is nonempty and the
current operating profit strictly exceeds its maximum, yet no record-high
tag is emitted because no previous-year statement exists. -/
theorem C4_counterexample :
    targetNoPrev.operating_profit = some 50 ∧
    samePeriodGroup (get_statements_for_code [oldPeer, targetNoPrev])
      targetNoPrev ≠ [] ∧
    maxOpOf ((samePeriodGroup (get_statements_for_code [oldPeer, targetNoPrev])
      targetNoPrev).filterMap FinancialStatement.operating_profit) < 50 ∧
    Signal.recordHigh ∉
      detect_signals (get_statements_for_code [oldPeer, targetNoPrev])
        targetNoPrev := by
  decide

/-- C4 amended: for a statement with present operating profit, the
record-high tag is emitted iff a previous-year statement exists AND the
same-period comparison set is nonempty AND the current operating profit
strictly exceeds its maximum. -/
theorem C4_amended_record_high (stmts : List FinancialStatement)
    (cur : FinancialStatement) (v : ℚ) (hop : cur.operating_profit = some v) :
    (Signal.recordHigh ∈ detect_signals stmts cur ↔
      (find_previous_year_statement stmts cur).isSome ∧
      samePeriodGroup stmts cur ≠ [] ∧
      maxOpOf ((samePeriodGroup stmts cur).filterMap
        FinancialStatement.operating_profit) < v) := by
  unfold detect_signals
  by_cases hs : stmts.isEmpty
  · rw [if_pos hs]
    have hnil : stmts = [] := List.isEmpty_iff.mp hs
    subst hnil
    simp [find_prev_year_nil cur]
  · rw [if_neg hs]
    rw [List.mem_append]
    cases hprev : (compare_year_over_year stmts cur).previous with
    | none =>
      have hfp : find_previous_year_statement stmts cur = none := by
        rw [← compareYoY_previous, hprev]
      simp [recordHigh_not_bigMoveTags, hfp]
    | some p =>
      have hfp : find_previous_year_statement stmts cur = some p := by
        rw [← compareYoY_previous, hprev]
      rw [List.mem_append]
      simp [recordHigh_not_bigMoveTags, recordHigh_not_turnTags, hfp,
        recordHigh_mem_recordTags stmts cur v hop]

/-- Closed instance of the amended C4 where the tag is emitted. -/
theorem C4_amended_record_high_witness :
    (Signal.recordHigh ∈
        detect_signals (get_statements_for_code [peer2024, tgt2025]) tgt2025 ↔
      (find_previous_year_statement
        (get_statements_for_code [peer2024, tgt2025]) tgt2025).isSome ∧
      samePeriodGroup (get_statements_for_code [peer2024, tgt2025]) tgt2025 ≠ [] ∧
      maxOpOf ((samePeriodGroup (get_statements_for_code [peer2024, tgt2025])
        tgt2025).filterMap FinancialStatement.operating_profit) < 50) :=
  C4_amended_record_high (get_statements_for_code [peer2024, tgt2025]) tgt2025 50 rfl

/-- C10: the batch scoring entry point returns its results sorted by total
score in descending order. -/
theorem C10_sorted_descending (store : List FinancialStatement) (w : Weights)
    (d : PyDate) :
    (score_all_for_date store w d).Pairwise fun a b => b.total ≤ a.total := by
  unfold score_all_for_date
  exact List.sorted_insertionSort scoreGe _
